import Mathlib

/-!
Shallow embedding of the cart aggregate of the ECOMMERCE repository
(`src/models/cart.model.js` and the cart router).

JavaScript numbers are modelled as rationals (`ℚ`): the source puts no
integrality constraint on prices or quantities, and route handlers coerce
request fields with `Number(...)`, which accepts fractional values.
`productId` and `userId` (Mongo ObjectIds compared via `toString()`) are
modelled as opaque `Nat` keys.  Mongoose documents are immutable records
here; the in-place mutations of the source (`item.quantity += 1`, etc.)
become pure list updates of the first matching element, mirroring the
`find`-then-mutate pattern of the source.
-/

/-- One embedded cart line (`cartItemSchema`). -/
structure CartItem where
  productId : Nat
  name : String
  price : ℚ
  quantity : ℚ
  image : String
  category : String
deriving DecidableEq, Repr

/-- The cart aggregate root (`cartSchema`). -/
structure Cart where
  userId : Nat
  items : List CartItem
  totalAmount : ℚ
  totalItems : ℚ
deriving DecidableEq, Repr

/-- The product snapshot passed to `addProduct` (`productData`); `image` and
`category` may be absent (`image || ''` in the source). -/
structure ProductData where
  productId : Nat
  name : String
  price : ℚ
  image : Option String
  category : Option String
deriving DecidableEq, Repr

/-- Applies `f` to the first element satisfying `p`, leaving the rest of the
list unchanged.  This is the effect of the source's
`const item = this.items.find(...); item.<field> = ...` pattern. -/
def updateFirst (p : CartItem → Bool) (f : CartItem → CartItem) :
    List CartItem → List CartItem
  | [] => []
  | it :: rest => if p it then f it :: rest else it :: updateFirst p f rest

/-- `calculateTotals` instance method: recomputes both totals from `items`
with `Array.prototype.reduce` (a left fold starting at 0). -/
def calculateTotals (c : Cart) : Cart :=
  { c with
    totalAmount := c.items.foldl (fun total it => total + it.price * it.quantity) 0
    totalItems := c.items.foldl (fun total it => total + it.quantity) 0 }

/-- `addProduct` instance method. -/
def addProduct (c : Cart) (pd : ProductData) : Cart :=
  let c' :=
    match c.items.find? (fun it => it.productId == pd.productId) with
    | some _ =>
        { c with
          items := updateFirst (fun it => it.productId == pd.productId)
            (fun it => { it with quantity := it.quantity + 1 }) c.items }
    | none =>
        { c with
          items := c.items ++
            [{ productId := pd.productId, name := pd.name, price := pd.price,
               quantity := 1, image := pd.image.getD "",
               category := pd.category.getD "" }] }
  calculateTotals c'

/-- `removeProduct` instance method: `this.items.filter(...)`. -/
def removeProduct (c : Cart) (productId : Nat) : Cart :=
  calculateTotals
    { c with items := c.items.filter (fun it => it.productId != productId) }

/-- `updateQuantity` instance method. -/
def updateQuantity (c : Cart) (productId : Nat) (quantity : ℚ) : Cart :=
  if quantity ≤ 0 then
    removeProduct c productId
  else
    match c.items.find? (fun it => it.productId == productId) with
    | some _ =>
        calculateTotals
          { c with
            items := updateFirst (fun it => it.productId == productId)
              (fun it => { it with quantity := quantity }) c.items }
    | none => c

/-- `increaseQuantity` instance method. -/
def increaseQuantity (c : Cart) (productId : Nat) : Cart :=
  match c.items.find? (fun it => it.productId == productId) with
  | some _ =>
      calculateTotals
        { c with
          items := updateFirst (fun it => it.productId == productId)
            (fun it => { it with quantity := it.quantity + 1 }) c.items }
  | none => c

/-- `decreaseQuantity` instance method: the found item's quantity is
decremented first; if the result is ≤ 0 the (already mutated) cart goes
through `removeProduct`, otherwise through `calculateTotals`. -/
def decreaseQuantity (c : Cart) (productId : Nat) : Cart :=
  match c.items.find? (fun it => it.productId == productId) with
  | none => c
  | some it =>
      let c' :=
        { c with
          items := updateFirst (fun x => x.productId == productId)
            (fun x => { x with quantity := x.quantity - 1 }) c.items }
      if it.quantity - 1 ≤ 0 then removeProduct c' productId
      else calculateTotals c'

/-- `clearCart` instance method: sets the fields directly, no recomputation. -/
def clearCart (c : Cart) : Cart :=
  { c with items := [], totalAmount := 0, totalItems := 0 }

/-- The `pre('save')` hook: every persist recomputes the totals. -/
def preSaveCart (c : Cart) : Cart := calculateTotals c

/-! ### The persistence layer and the cart router

The Mongo collection holds at most one cart per `userId` (unique index), so
it is modelled as a partial map from user ids to carts.  `save` persists the
document under its `userId` after the `pre('save')` hook has run.
-/

/-- The cart collection: at most one cart per user. -/
def CartStore : Type := Nat → Option Cart

/-- A collection with no carts at all. -/
def emptyStore : CartStore := fun _ => none

/-- Persisting a cart document under its user key. -/
def storeInsert (s : CartStore) (uid : Nat) (c : Cart) : CartStore :=
  fun u => if u = uid then some c else s u

/-- The fresh document built by `getOrCreateCart`:
`new this({ userId, items: [], totalAmount: 0, totalItems: 0 })`. -/
def newCartFor (uid : Nat) : Cart :=
  { userId := uid, items := [], totalAmount := 0, totalItems := 0 }

/-- `getUserCart` static method: a pure `findOne` lookup, never creates. -/
def getUserCart (s : CartStore) (uid : Nat) : Option Cart := s uid

/-- `getOrCreateCart` static method: returns the existing cart, or creates
and saves an empty one.  The document saved here is always the fresh empty
cart, which passes every schema validator, so this particular save always
resolves. -/
def getOrCreateCart (s : CartStore) (uid : Nat) : Cart × CartStore :=
  match s uid with
  | some cart => (cart, s)
  | none =>
      let cart := preSaveCart (newCartFor uid)
      (cart, storeInsert s uid cart)

/-- The mongoose `ValidationError` a rejected `save()` carries. -/
inductive SaveError where
  | validationFailed
deriving DecidableEq, Repr

/-- The schema validators checked on save: each line needs `price ≥ 0`
(`min: 0`) and `quantity ≥ 1` (`min: 1`), and the cart needs
`totalAmount ≥ 0` and `totalItems ≥ 0` (`min: 0`). -/
def validCart (c : Cart) : Bool :=
  c.items.all (fun it => decide (0 ≤ it.price) && decide (1 ≤ it.quantity)) &&
    (decide (0 ≤ c.totalAmount) && decide (0 ≤ c.totalItems))

/-- `await cart.save()`: mongoose runs validation as the first pre-save
step, so the document is validated as handed in; a validator failure
rejects with a `ValidationError` and nothing is persisted.  On success the
user-defined `pre('save')` hook recomputes the totals and the document is
written. -/
def saveCart (c : Cart) : Except SaveError Cart :=
  if validCart c then Except.ok (preSaveCart c)
  else Except.error SaveError.validationFailed

/-- `updateProductQuantity` static method: resolves the cart through
`getOrCreateCart`, applies `updateQuantity`, then `await cart.save()`.
A `ValidationError` from `save()` is caught, logged and rethrown, leaving
the store as `getOrCreateCart` left it.  On success the saved document —
never `null`, which the inner `Option` records for the route's null
check — is persisted under the user's key. -/
def updateProductQuantity (s : CartStore) (uid productId : Nat) (quantity : ℚ) :
    Except SaveError (Option Cart) × CartStore :=
  let resolved := getOrCreateCart s uid
  match saveCart (updateQuantity resolved.fst productId quantity) with
  | Except.ok saved => (Except.ok (some saved), storeInsert resolved.snd uid saved)
  | Except.error e => (Except.error e, resolved.snd)

/-- HTTP outcomes the cart router distinguishes (status + payload shape);
`serverError` is the catch-all 500 answer of every handler's catch block. -/
inductive RouteOutcome where
  | badRequest
  | notFound
  | conflict (existing : Cart)
  | ok (cart : Cart)
  | created (cart : Cart)
  | serverError
deriving DecidableEq, Repr

/-- `PUT /api/cart/:userId/quantity`: validates presence of `productId` and
`quantity`, calls `updateProductQuantity` inside try/catch — a thrown
error answers 500 — then answers 404 if the resulting cart is `null` and
200 with the cart otherwise. -/
def putQuantityRoute (s : CartStore) (uid : Nat) (productId : Option Nat)
    (quantity : Option ℚ) : RouteOutcome × CartStore :=
  match productId, quantity with
  | some pid, some q =>
      match updateProductQuantity s uid pid q with
      | (Except.error _, s') => (RouteOutcome.serverError, s')
      | (Except.ok none, s') => (RouteOutcome.notFound, s')
      | (Except.ok (some cart), s') => (RouteOutcome.ok cart, s')
  | _, _ => (RouteOutcome.badRequest, s)

/-- `POST /api/cart/create`: validates `userId`, answers 409 when
`getUserCart` finds an existing cart, otherwise creates one through
`getOrCreateCart` and answers 201. -/
def createCartRoute (s : CartStore) (userId : Option Nat) :
    RouteOutcome × CartStore :=
  match userId with
  | none => (RouteOutcome.badRequest, s)
  | some uid =>
      match getUserCart s uid with
      | some existing => (RouteOutcome.conflict existing, s)
      | none =>
          let resolved := getOrCreateCart s uid
          (RouteOutcome.created resolved.fst, resolved.snd)

/-! ### Specification-side vocabulary -/

/-- Σ(line.price × line.quantity) over a list of lines. -/
def sumAmount (items : List CartItem) : ℚ :=
  (items.map (fun it => it.price * it.quantity)).sum

/-- Σ(line.quantity) over a list of lines. -/
def sumQty (items : List CartItem) : ℚ :=
  (items.map (fun it => it.quantity)).sum

/-- The derived-totals invariant of the spec. -/
def totalsConsistent (c : Cart) : Prop :=
  c.totalAmount = sumAmount c.items ∧ c.totalItems = sumQty c.items

/-- The at-most-one-line-per-productId invariant of the spec. -/
def uniquePids (c : Cart) : Prop :=
  (c.items.map (fun it => it.productId)).Nodup

/-- One cart mutation operation, with its inputs. -/
inductive CartMutation where
  | add (pd : ProductData)
  | remove (productId : Nat)
  | update (productId : Nat) (quantity : ℚ)
  | increase (productId : Nat)
  | decrease (productId : Nat)
  | clear
deriving Repr

/-- Dispatch of a mutation to the instance method it names. -/
def applyMutation (m : CartMutation) (c : Cart) : Cart :=
  match m with
  | .add pd => addProduct c pd
  | .remove pid => removeProduct c pid
  | .update pid q => updateQuantity c pid q
  | .increase pid => increaseQuantity c pid
  | .decrease pid => decreaseQuantity c pid
  | .clear => clearCart c

/-- The product id a mutation is aimed at (`clearCart` has none). -/
def mutationTarget : CartMutation → Option Nat
  | .add pd => some pd.productId
  | .remove pid => some pid
  | .update pid _ => some pid
  | .increase pid => some pid
  | .decrease pid => some pid
  | .clear => none

/-- The line `addProduct` appends for snapshot `pd`, generalised over the
quantity so that repeated additions can be described. -/
def snapshotLine (pd : ProductData) (q : ℚ) : CartItem :=
  { productId := pd.productId, name := pd.name, price := pd.price,
    quantity := q, image := pd.image.getD "", category := pd.category.getD "" }

/-- `n` successive `addProduct` calls with the same snapshot. -/
def addNTimes (pd : ProductData) : Nat → Cart → Cart
  | 0, c => c
  | n + 1, c => addProduct (addNTimes pd n c) pd

/-! ### Concrete fixtures used by witnesses and counterexamples -/

/-- A concrete line: product 1, price 2, quantity 1. -/
def itemA : CartItem :=
  { productId := 1, name := "alpha", price := 2, quantity := 1,
    image := "", category := "" }

/-- `itemA` with its quantity overwritten by the fractional input 1/2. -/
def itemAHalf : CartItem :=
  { productId := 1, name := "alpha", price := 2, quantity := 1/2,
    image := "", category := "" }

/-- A one-line cart whose stored totals are consistent. -/
def cartA : Cart :=
  { userId := 7, items := [itemA], totalAmount := 2, totalItems := 1 }

/-- A two-line cart whose stored totals are consistent. -/
def cartB : Cart :=
  { userId := 8,
    items := [{ productId := 1, name := "alpha", price := 2, quantity := 3,
                image := "", category := "" },
              { productId := 2, name := "beta", price := 5, quantity := 1,
                image := "i", category := "c" }],
    totalAmount := 11, totalItems := 4 }

/-- A concrete product snapshot. -/
def pdA : ProductData :=
  { productId := 9, name := "gamma", price := 1000, image := none,
    category := none }

/-! ### Basic lemmas about the list primitives of the embedding -/

theorem foldl_add_eq_sum (f : CartItem → ℚ) :
    ∀ (l : List CartItem) (a : ℚ),
      l.foldl (fun t it => t + f it) a = a + (l.map f).sum
  | [], a => by simp
  | x :: xs, a => by
    simp [foldl_add_eq_sum f xs, add_assoc]

theorem calculateTotals_items (c : Cart) : (calculateTotals c).items = c.items :=
  rfl

theorem calculateTotals_userId (c : Cart) :
    (calculateTotals c).userId = c.userId := rfl

theorem totalsConsistent_calculateTotals (c : Cart) :
    totalsConsistent (calculateTotals c) := by
  unfold totalsConsistent calculateTotals sumAmount sumQty
  constructor <;> simp [foldl_add_eq_sum]

theorem totalsConsistent_removeProduct (c : Cart) (pid : Nat) :
    totalsConsistent (removeProduct c pid) :=
  totalsConsistent_calculateTotals _

theorem totalsConsistent_addProduct (c : Cart) (pd : ProductData) :
    totalsConsistent (addProduct c pd) := by
  unfold addProduct
  exact totalsConsistent_calculateTotals _

theorem updateFirst_of_find?_none {p : CartItem → Bool} (f : CartItem → CartItem) :
    ∀ {l : List CartItem}, l.find? p = none → updateFirst p f l = l
  | [], _ => rfl
  | x :: xs, h => by
    rcases hpx : p x with _ | _
    · rw [List.find?_cons_of_neg _ (by simp [hpx])] at h
      simp [updateFirst, hpx, updateFirst_of_find?_none f h]
    · rw [List.find?_cons_of_pos _ hpx] at h
      exact absurd h (by simp)

theorem find?_some_decomp {p : CartItem → Bool} :
    ∀ {l : List CartItem} {a : CartItem}, l.find? p = some a →
      ∃ s t, l = s ++ a :: t ∧ (∀ x ∈ s, p x = false) ∧ p a = true ∧
        ∀ f : CartItem → CartItem, updateFirst p f l = s ++ f a :: t
  | [], a, h => by simp at h
  | x :: xs, a, h => by
    rcases hpx : p x with _ | _
    · rw [List.find?_cons_of_neg _ (by simp [hpx])] at h
      obtain ⟨s, t, rfl, hs, hpa, hu⟩ := find?_some_decomp h
      refine ⟨x :: s, t, rfl, ?_, hpa, ?_⟩
      · intro y hy
        rcases List.mem_cons.mp hy with rfl | hy
        · exact hpx
        · exact hs y hy
      · intro f
        simp [updateFirst, hpx, hu f]
    · rw [List.find?_cons_of_pos _ hpx] at h
      cases h
      exact ⟨[], xs, rfl, by simp, hpx, fun f => by simp [updateFirst, hpx]⟩

theorem filter_updateFirst {p q : CartItem → Bool} {f : CartItem → CartItem}
    (hf : ∀ x, q (f x) = q x) (hpq : ∀ x, p x = true → q x = false) :
    ∀ l : List CartItem, (updateFirst p f l).filter q = l.filter q
  | [] => rfl
  | x :: xs => by
    rcases hpx : p x with _ | _
    · simp only [updateFirst, hpx, Bool.false_eq_true, if_false]
      rcases hqx : q x with _ | _
      · simp [List.filter_cons, hqx, filter_updateFirst hf hpq xs]
      · simp [List.filter_cons, hqx, filter_updateFirst hf hpq xs]
    · have hqx : q x = false := hpq x hpx
      simp [updateFirst, hpx, List.filter_cons, hqx, hf x]

theorem map_productId_updateFirst {p : CartItem → Bool} {f : CartItem → CartItem}
    (hf : ∀ x, (f x).productId = x.productId) :
    ∀ l : List CartItem,
      (updateFirst p f l).map (fun it => it.productId) =
        l.map (fun it => it.productId)
  | [] => rfl
  | x :: xs => by
    rcases hpx : p x with _ | _
    · simp [updateFirst, hpx, map_productId_updateFirst hf xs]
    · simp [updateFirst, hpx, hf x]

theorem mem_updateFirst {p : CartItem → Bool} {f : CartItem → CartItem} :
    ∀ {l : List CartItem} {x : CartItem}, x ∈ updateFirst p f l →
      x ∈ l ∨ ∃ y ∈ l, p y = true ∧ x = f y
  | [], x, h => by simp [updateFirst] at h
  | a :: as, x, h => by
    rcases hpa : p a with _ | _
    · simp only [updateFirst, hpa, Bool.false_eq_true, if_false,
        List.mem_cons] at h
      rcases h with rfl | h
      · exact Or.inl (List.mem_cons_self _ _)
      · rcases mem_updateFirst h with hmem | ⟨y, hy, hpy, rfl⟩
        · exact Or.inl (List.mem_cons_of_mem _ hmem)
        · exact Or.inr ⟨y, List.mem_cons_of_mem _ hy, hpy, rfl⟩
    · simp only [updateFirst, hpa, if_true, List.mem_cons] at h
      rcases h with rfl | h
      · exact Or.inr ⟨a, List.mem_cons_self _ _, hpa, rfl⟩
      · exact Or.inl (List.mem_cons_of_mem _ h)

theorem find?_append_of_none {p : CartItem → Bool} {l₁ : List CartItem}
    (h : l₁.find? p = none) (l₂ : List CartItem) :
    (l₁ ++ l₂).find? p = l₂.find? p := by
  induction l₁ with
  | nil => simp
  | cons x xs ih =>
    rcases hpx : p x with _ | _
    · rw [List.find?_cons_of_neg _ (by simp [hpx])] at h
      rw [List.cons_append, List.find?_cons_of_neg _ (by simp [hpx])]
      exact ih h
    · rw [List.find?_cons_of_pos _ hpx] at h
      exact absurd h (by simp)

theorem updateFirst_append_of_none {p : CartItem → Bool}
    {f : CartItem → CartItem} {l₁ : List CartItem} (h : l₁.find? p = none)
    (l₂ : List CartItem) :
    updateFirst p f (l₁ ++ l₂) = l₁ ++ updateFirst p f l₂ := by
  induction l₁ with
  | nil => simp
  | cons x xs ih =>
    rcases hpx : p x with _ | _
    · rw [List.find?_cons_of_neg _ (by simp [hpx])] at h
      simp [updateFirst, hpx, ih h]
    · rw [List.find?_cons_of_pos _ hpx] at h
      exact absurd h (by simp)

theorem filter_eq_nil_of_find?_none {p : CartItem → Bool} {l : List CartItem}
    (h : l.find? p = none) : l.filter p = [] := by
  have hall := List.find?_eq_none.mp h
  exact List.filter_eq_nil_iff.mpr fun x hx => by simp [hall x hx]

/-! ### Claim theorems -/

/-- C6: `clearCart` always yields `items = []`, `totalAmount = 0`,
`totalItems = 0`, regardless of the prior cart state. -/
theorem clearCart_spec (c : Cart) :
    (clearCart c).items = [] ∧ (clearCart c).totalAmount = 0 ∧
    (clearCart c).totalItems = 0 :=
  ⟨rfl, rfl, rfl⟩

/-- C4: for every cart state and productId, `updateQuantity` with a
quantity ≤ 0 (in particular 0) yields exactly the same cart state as
`removeProduct`. -/
theorem updateQuantity_nonpos_eq_removeProduct (c : Cart) (productId : Nat)
    (q : ℚ) (h : q ≤ 0) :
    updateQuantity c productId q = removeProduct c productId := by
  unfold updateQuantity
  simp [h]

/-- Witness for `updateQuantity_nonpos_eq_removeProduct` at quantity 0. -/
theorem updateQuantity_nonpos_eq_removeProduct_witness :
    updateQuantity cartA 1 0 = removeProduct cartA 1 :=
  updateQuantity_nonpos_eq_removeProduct cartA 1 0 (by norm_num)

theorem totalsConsistent_updateQuantity (c : Cart) (pid : Nat) (q : ℚ)
    (hc : totalsConsistent c) : totalsConsistent (updateQuantity c pid q) := by
  unfold updateQuantity
  split
  · exact totalsConsistent_removeProduct c pid
  · split
    · exact totalsConsistent_calculateTotals _
    · exact hc

theorem totalsConsistent_increaseQuantity (c : Cart) (pid : Nat)
    (hc : totalsConsistent c) : totalsConsistent (increaseQuantity c pid) := by
  unfold increaseQuantity
  split
  · exact totalsConsistent_calculateTotals _
  · exact hc

theorem totalsConsistent_decreaseQuantity (c : Cart) (pid : Nat)
    (hc : totalsConsistent c) : totalsConsistent (decreaseQuantity c pid) := by
  unfold decreaseQuantity
  split
  · exact hc
  · split
    · exact totalsConsistent_removeProduct _ _
    · exact totalsConsistent_calculateTotals _

theorem totalsConsistent_clearCart (c : Cart) :
    totalsConsistent (clearCart c) := by
  constructor <;> simp [clearCart, sumAmount, sumQty]

/-- C1: after every mutation the persisted cart (through the pre-save
recomputation) has `totalAmount = Σ price·quantity` and
`totalItems = Σ quantity`; if the cart satisfied the invariant before, the
in-memory result satisfies it as well, and an empty resulting item list
forces both totals to 0. -/
theorem mutation_totals_spec (m : CartMutation) (c : Cart) :
    totalsConsistent (preSaveCart (applyMutation m c)) ∧
    (totalsConsistent c →
      totalsConsistent (applyMutation m c) ∧
      ((applyMutation m c).items = [] →
        (applyMutation m c).totalAmount = 0 ∧
        (applyMutation m c).totalItems = 0)) := by
  have hempty : ∀ d : Cart, totalsConsistent d → d.items = [] →
      d.totalAmount = 0 ∧ d.totalItems = 0 := by
    intro d hd hnil
    rcases hd with ⟨h1, h2⟩
    rw [h1, h2, hnil]
    simp [sumAmount, sumQty]
  have hcons : totalsConsistent c → totalsConsistent (applyMutation m c) := by
    intro hc
    cases m with
    | add pd => exact totalsConsistent_addProduct c pd
    | remove pid => exact totalsConsistent_removeProduct c pid
    | update pid q => exact totalsConsistent_updateQuantity c pid q hc
    | increase pid => exact totalsConsistent_increaseQuantity c pid hc
    | decrease pid => exact totalsConsistent_decreaseQuantity c pid hc
    | clear => exact totalsConsistent_clearCart c
  exact ⟨totalsConsistent_calculateTotals _,
    fun hc => ⟨hcons hc, hempty _ (hcons hc)⟩⟩

/-- Witness for `mutation_totals_spec` on a concrete consistent cart. -/
theorem mutation_totals_spec_witness :
    totalsConsistent cartA ∧
    totalsConsistent (applyMutation (CartMutation.increase 1) cartA) := by
  have hc : totalsConsistent cartA := by
    constructor <;> norm_num [cartA, itemA, sumAmount, sumQty]
  exact ⟨hc, ((mutation_totals_spec (CartMutation.increase 1) cartA).2 hc).1⟩

theorem nodup_map_updateFirst {p : CartItem → Bool} {f : CartItem → CartItem}
    (hf : ∀ x, (f x).productId = x.productId) {l : List CartItem}
    (h : (l.map (fun it => it.productId)).Nodup) :
    ((updateFirst p f l).map (fun it => it.productId)).Nodup := by
  rw [map_productId_updateFirst hf]
  exact h

theorem nodup_map_filter {q : CartItem → Bool} {l : List CartItem}
    (h : (l.map (fun it => it.productId)).Nodup) :
    ((l.filter q).map (fun it => it.productId)).Nodup :=
  List.Nodup.sublist ((List.filter_sublist _).map _) h

theorem uniquePids_calc_updateFirst (c : Cart) (p : CartItem → Bool)
    (f : CartItem → CartItem) (hf : ∀ x, (f x).productId = x.productId)
    (h : uniquePids c) :
    uniquePids (calculateTotals { c with items := updateFirst p f c.items }) := by
  show ((updateFirst p f c.items).map (fun it => it.productId)).Nodup
  rw [map_productId_updateFirst hf]
  exact h

theorem uniquePids_mk_updateFirst (c : Cart) (p : CartItem → Bool)
    (f : CartItem → CartItem) (hf : ∀ x, (f x).productId = x.productId)
    (h : uniquePids c) :
    uniquePids { c with items := updateFirst p f c.items } := by
  show ((updateFirst p f c.items).map (fun it => it.productId)).Nodup
  rw [map_productId_updateFirst hf]
  exact h

theorem uniquePids_removeProduct (c : Cart) (pid : Nat) (h : uniquePids c) :
    uniquePids (removeProduct c pid) := by
  show (((c.items.filter _).map (fun it => it.productId))).Nodup
  exact List.Nodup.sublist ((List.filter_sublist _).map _) h

theorem uniquePids_addProduct (c : Cart) (pd : ProductData)
    (h : uniquePids c) : uniquePids (addProduct c pd) := by
  unfold addProduct
  rcases hf : c.items.find? (fun it => it.productId == pd.productId) with _ | it
  · rw [hf]
    have hnotin : pd.productId ∉ c.items.map (fun it => it.productId) := by
      intro hmem
      obtain ⟨x, hx, hpx⟩ := List.mem_map.mp hmem
      have hx' := List.find?_eq_none.mp hf x hx
      simp [hpx] at hx'
    show ((c.items ++ [snapshotLine pd 1]).map (fun it => it.productId)).Nodup
    simp only [List.map_append, List.map_cons, List.map_nil]
    rw [List.nodup_append]
    refine ⟨h, List.nodup_singleton _, ?_⟩
    simpa [snapshotLine] using hnotin
  · rw [hf]
    exact uniquePids_calc_updateFirst c _
      (fun it => { it with quantity := it.quantity + 1 }) (fun x => rfl) h

theorem uniquePids_updateQuantity (c : Cart) (pid : Nat) (q : ℚ)
    (h : uniquePids c) : uniquePids (updateQuantity c pid q) := by
  unfold updateQuantity
  split
  · exact uniquePids_removeProduct c pid h
  · split
    · exact uniquePids_calc_updateFirst c _
        (fun it => { it with quantity := q }) (fun x => rfl) h
    · exact h

theorem uniquePids_increaseQuantity (c : Cart) (pid : Nat)
    (h : uniquePids c) : uniquePids (increaseQuantity c pid) := by
  unfold increaseQuantity
  split
  · exact uniquePids_calc_updateFirst c _
      (fun it => { it with quantity := it.quantity + 1 }) (fun x => rfl) h
  · exact h

theorem uniquePids_decreaseQuantity (c : Cart) (pid : Nat)
    (h : uniquePids c) : uniquePids (decreaseQuantity c pid) := by
  unfold decreaseQuantity
  split
  · exact h
  · split
    · exact uniquePids_removeProduct _ pid
        (uniquePids_mk_updateFirst c _
          (fun x => { x with quantity := x.quantity - 1 }) (fun x => rfl) h)
    · exact uniquePids_calc_updateFirst c _
        (fun x => { x with quantity := x.quantity - 1 }) (fun x => rfl) h

/-- C3: every mutation preserves the at-most-one-line-per-productId
invariant. -/
theorem mutation_unique_pids (m : CartMutation) (c : Cart)
    (h : uniquePids c) : uniquePids (applyMutation m c) := by
  cases m with
  | add pd => exact uniquePids_addProduct c pd h
  | remove pid => exact uniquePids_removeProduct c pid h
  | update pid q => exact uniquePids_updateQuantity c pid q h
  | increase pid => exact uniquePids_increaseQuantity c pid h
  | decrease pid => exact uniquePids_decreaseQuantity c pid h
  | clear => exact List.nodup_nil

/-- Witness for `mutation_unique_pids` on a concrete two-line cart. -/
theorem mutation_unique_pids_witness :
    uniquePids cartB ∧ uniquePids (applyMutation (CartMutation.add pdA) cartB) :=
  ⟨by unfold uniquePids cartB; decide,
   mutation_unique_pids (CartMutation.add pdA) cartB
     (by unfold uniquePids cartB; decide)⟩

theorem addProduct_items_of_find?_none (c : Cart) (pd : ProductData)
    (h : c.items.find? (fun it => it.productId == pd.productId) = none) :
    (addProduct c pd).items = c.items ++ [snapshotLine pd 1] := by
  unfold addProduct
  rw [h]
  rfl

theorem addNTimes_items (c : Cart) (pd : ProductData)
    (h : c.items.find? (fun it => it.productId == pd.productId) = none) :
    ∀ n : Nat, 0 < n →
      (addNTimes pd n c).items = c.items ++ [snapshotLine pd (n : ℚ)] := by
  intro n
  induction n with
  | zero => exact fun h0 => absurd h0 (lt_irrefl 0)
  | succ k ih =>
    intro _
    rcases Nat.eq_zero_or_pos k with rfl | hk
    · show (addProduct (addNTimes pd 0 c) pd).items = _
      simp only [addNTimes]
      rw [addProduct_items_of_find?_none c pd h]
      norm_num
    · have hk' := ih hk
      show (addProduct (addNTimes pd k c) pd).items = _
      have hfind : (addNTimes pd k c).items.find?
          (fun it => it.productId == pd.productId) =
          some (snapshotLine pd (k : ℚ)) := by
        rw [hk', find?_append_of_none h]
        rw [List.find?_cons_of_pos _ (by simp [snapshotLine])]
      unfold addProduct
      rw [hfind]
      show updateFirst _ _ (addNTimes pd k c).items = _
      rw [hk', updateFirst_append_of_none h]
      have : updateFirst (fun it => it.productId == pd.productId)
          (fun it => { it with quantity := it.quantity + 1 })
          [snapshotLine pd (k : ℚ)] = [snapshotLine pd ((k : ℚ) + 1)] := by
        simp [updateFirst, snapshotLine]
      rw [this]
      push_cast
      rfl

/-- C2: if a line with the snapshot's productId exists, `addProduct`
increments only that line's quantity, keeping its name/price/image/category
and the other lines in place; otherwise it appends a quantity-1 line; and
starting from a cart without that productId, `n` successive calls leave
exactly one line for it, with quantity `n`. -/
theorem addProduct_spec (c : Cart) (pd : ProductData) :
    (c.items.find? (fun it => it.productId == pd.productId) = none →
      (addProduct c pd).items = c.items ++ [snapshotLine pd 1]) ∧
    (∀ it, c.items.find? (fun it => it.productId == pd.productId) = some it →
      ∃ s t, c.items = s ++ it :: t ∧
        (∀ x ∈ s, x.productId ≠ pd.productId) ∧
        (addProduct c pd).items =
          s ++ { it with quantity := it.quantity + 1 } :: t) ∧
    (∀ n : Nat, 0 < n →
      c.items.find? (fun it => it.productId == pd.productId) = none →
      (addNTimes pd n c).items.filter (fun it => it.productId == pd.productId) =
        [snapshotLine pd (n : ℚ)]) := by
  refine ⟨addProduct_items_of_find?_none c pd, ?_, ?_⟩
  · intro it hfind
    obtain ⟨s, t, hl, hs, hpa, hu⟩ := find?_some_decomp hfind
    refine ⟨s, t, hl, ?_, ?_⟩
    · intro x hx
      have := hs x hx
      simpa using this
    · unfold addProduct
      rw [hfind]
      exact hu _
  · intro n hn hnone
    rw [addNTimes_items c pd hnone n hn, List.filter_append,
      filter_eq_nil_of_find?_none hnone]
    simp [snapshotLine]

/-- Witness for `addProduct_spec`: three additions to the empty cart of
`cartA`'s user leave one line of quantity 3. -/
theorem addProduct_spec_witness :
    (0 < 3 ∧ (clearCart cartA).items.find?
        (fun it => it.productId == pdA.productId) = none) ∧
    (addNTimes pdA 3 (clearCart cartA)).items.filter
        (fun it => it.productId == pdA.productId) =
      [snapshotLine pdA (3 : ℚ)] :=
  ⟨⟨by norm_num, rfl⟩,
   (addProduct_spec (clearCart cartA) pdA).2.2 3 (by norm_num) rfl⟩

/-- C5: `decreaseQuantity` on a line with quantity exactly 1 removes the
line, and the recomputed totals equal the sums over the remaining items;
with quantity above 1 it only decrements that line's quantity; with no
matching line it is a no-op. -/
theorem decreaseQuantity_spec (c : Cart) (pid : Nat) :
    (c.items.find? (fun it => it.productId == pid) = none →
      decreaseQuantity c pid = c) ∧
    (∀ it, c.items.find? (fun it => it.productId == pid) = some it →
      (it.quantity = 1 →
        (decreaseQuantity c pid).items =
          c.items.filter (fun x => x.productId != pid) ∧
        (∀ x ∈ (decreaseQuantity c pid).items, x.productId ≠ pid) ∧
        (decreaseQuantity c pid).totalAmount =
          sumAmount (decreaseQuantity c pid).items ∧
        (decreaseQuantity c pid).totalItems =
          sumQty (decreaseQuantity c pid).items) ∧
      (1 < it.quantity →
        ∃ s t, c.items = s ++ it :: t ∧ (∀ x ∈ s, x.productId ≠ pid) ∧
          (decreaseQuantity c pid).items =
            s ++ { it with quantity := it.quantity - 1 } :: t)) := by
  constructor
  · intro h
    unfold decreaseQuantity
    rw [h]
  · intro it hfind
    constructor
    · intro hq1
      have hq0 : it.quantity - 1 ≤ 0 := by rw [hq1]; norm_num
      have hdec : decreaseQuantity c pid =
          removeProduct
            { c with
              items := updateFirst (fun x => x.productId == pid)
                (fun x => { x with quantity := x.quantity - 1 }) c.items }
            pid := by
        unfold decreaseQuantity
        simp only [hfind]
        rw [if_pos hq0]
      have hframe : (updateFirst (fun x => x.productId == pid)
          (fun x => { x with quantity := x.quantity - 1 }) c.items).filter
            (fun x => x.productId != pid) =
          c.items.filter (fun x => x.productId != pid) := by
        refine filter_updateFirst ?_ ?_ c.items
        · intro x
          rfl
        · intro x hx
          simp [bne, hx]
      have hitems : (decreaseQuantity c pid).items =
          c.items.filter (fun x => x.productId != pid) := by
        rw [hdec]
        exact hframe
      refine ⟨hitems, ?_, ?_, ?_⟩
      · intro x hx
        rw [hitems] at hx
        have := (List.mem_filter.mp hx).2
        simpa using this
      · rw [hdec]
        exact (totalsConsistent_removeProduct _ _).1
      · rw [hdec]
        exact (totalsConsistent_removeProduct _ _).2
    · intro hq2
      obtain ⟨s, t, hl, hs, hpa, hu⟩ := find?_some_decomp hfind
      refine ⟨s, t, hl, fun x hx => by simpa using hs x hx, ?_⟩
      have hq0 : ¬ (it.quantity - 1 ≤ 0) := by
        rw [not_le]
        linarith
      unfold decreaseQuantity
      simp only [hfind]
      rw [if_neg hq0]
      show updateFirst _ _ c.items = _
      exact hu _

/-- Witness for `decreaseQuantity_spec`: in `cartA` the productId-1 line has
quantity 1, and decreasing it empties the item list. -/
theorem decreaseQuantity_spec_witness :
    (cartA.items.find? (fun it => it.productId == 1) = some itemA) ∧
    (decreaseQuantity cartA 1).items =
      cartA.items.filter (fun x => x.productId != 1) :=
  ⟨rfl, (((decreaseQuantity_spec cartA 1).2 itemA rfl).1 rfl).1⟩

/-- C7 counterexample: `cartA` satisfies every cart invariant, with the
productId-1 line at integer quantity 1, yet `updateQuantity` with the
numeric input 1/2 produces a line whose quantity is not an integer ≥ 1
(nothing in the code forces integrality of quantities). -/
theorem updateQuantity_fractional_cex :
    totalsConsistent cartA ∧ uniquePids cartA ∧
    (∀ it ∈ cartA.items, it.quantity.den = 1 ∧ 1 ≤ it.quantity) ∧
    ¬ (∀ it ∈ (updateQuantity cartA 1 (1/2 : ℚ)).items,
        it.quantity.den = 1 ∧ 1 ≤ it.quantity) := by
  refine ⟨⟨?_, ?_⟩, ?_, ?_, ?_⟩
  · norm_num [cartA, itemA, sumAmount]
  · norm_num [cartA, itemA, sumQty]
  · unfold uniquePids cartA
    decide
  · intro it hit
    simp only [cartA, itemA, List.mem_singleton] at hit
    subst hit
    exact ⟨rfl, le_refl 1⟩
  · intro hall
    have hres : (updateQuantity cartA 1 (1/2 : ℚ)).items = [itemAHalf] := by
      norm_num [updateQuantity, calculateTotals, updateFirst, cartA,
        itemA, itemAHalf, List.find?]
    have hmem : itemAHalf ∈ (updateQuantity cartA 1 (1/2 : ℚ)).items := by
      rw [hres]
      exact List.mem_singleton_self _
    have h2 := (hall _ hmem).2
    norm_num [itemAHalf] at h2

theorem quantities_pos_addProduct (c : Cart) (pd : ProductData)
    (h : ∀ it ∈ c.items, 0 < it.quantity) :
    ∀ x ∈ (addProduct c pd).items, 0 < x.quantity := by
  unfold addProduct
  rcases hfind : c.items.find? (fun it => it.productId == pd.productId)
    with _ | it
  · rw [hfind]
    intro x hx
    have hx' : x ∈ c.items ++ [snapshotLine pd 1] := hx
    rcases List.mem_append.mp hx' with hmem | hmem
    · exact h x hmem
    · have hxe : x = snapshotLine pd 1 := List.mem_singleton.mp hmem
      rw [hxe]
      norm_num [snapshotLine]
  · rw [hfind]
    intro x hx
    have hx' : x ∈ updateFirst (fun it => it.productId == pd.productId)
        (fun it => { it with quantity := it.quantity + 1 }) c.items := hx
    rcases mem_updateFirst hx' with hmem | ⟨y, hy, hpy, rfl⟩
    · exact h x hmem
    · have := h y hy
      show 0 < y.quantity + 1
      linarith

theorem quantities_pos_removeProduct (c : Cart) (pid : Nat)
    (h : ∀ it ∈ c.items, 0 < it.quantity) :
    ∀ x ∈ (removeProduct c pid).items, 0 < x.quantity := by
  intro x hx
  have hx' : x ∈ c.items.filter (fun it => it.productId != pid) := hx
  exact h x (List.mem_filter.mp hx').1

theorem quantities_pos_updateQuantity (c : Cart) (pid : Nat) (q : ℚ)
    (h : ∀ it ∈ c.items, 0 < it.quantity) :
    ∀ x ∈ (updateQuantity c pid q).items, 0 < x.quantity := by
  unfold updateQuantity
  rcases le_or_lt q 0 with hq | hq
  · rw [if_pos hq]
    exact quantities_pos_removeProduct c pid h
  · rw [if_neg (not_le.mpr hq)]
    rcases hfind : c.items.find? (fun it => it.productId == pid) with _ | it
    · rw [hfind]
      exact h
    · rw [hfind]
      intro x hx
      have hx' : x ∈ updateFirst (fun it => it.productId == pid)
          (fun it => { it with quantity := q }) c.items := hx
      rcases mem_updateFirst hx' with hmem | ⟨y, hy, hpy, rfl⟩
      · exact h x hmem
      · exact hq

theorem quantities_pos_increaseQuantity (c : Cart) (pid : Nat)
    (h : ∀ it ∈ c.items, 0 < it.quantity) :
    ∀ x ∈ (increaseQuantity c pid).items, 0 < x.quantity := by
  unfold increaseQuantity
  rcases hfind : c.items.find? (fun it => it.productId == pid) with _ | it
  · rw [hfind]
    exact h
  · rw [hfind]
    intro x hx
    have hx' : x ∈ updateFirst (fun it => it.productId == pid)
        (fun it => { it with quantity := it.quantity + 1 }) c.items := hx
    rcases mem_updateFirst hx' with hmem | ⟨y, hy, hpy, rfl⟩
    · exact h x hmem
    · have := h y hy
      show 0 < y.quantity + 1
      linarith

theorem quantities_pos_decreaseQuantity (c : Cart) (pid : Nat)
    (h : ∀ it ∈ c.items, 0 < it.quantity) :
    ∀ x ∈ (decreaseQuantity c pid).items, 0 < x.quantity := by
  unfold decreaseQuantity
  rcases hfind : c.items.find? (fun it => it.productId == pid) with _ | it
  · rw [hfind]
    exact h
  · simp only [hfind]
    rcases le_or_lt (it.quantity - 1) 0 with hq | hq
    · rw [if_pos hq]
      intro x hx
      have hx' : x ∈ (updateFirst (fun y => y.productId == pid)
          (fun y => { y with quantity := y.quantity - 1 }) c.items).filter
            (fun y => y.productId != pid) := hx
      have hxm := (List.mem_filter.mp hx').1
      rcases mem_updateFirst hxm with hmem | ⟨y, hy, hpy, rfl⟩
      · exact h x hmem
      · have hne := (List.mem_filter.mp hx').2
        simp [bne, hpy] at hne
    · rw [if_neg (not_le.mpr hq)]
      obtain ⟨s, t, hl, hs, hpa, hu⟩ := find?_some_decomp hfind
      intro x hx
      have hx' : x ∈ updateFirst (fun y => y.productId == pid)
          (fun y => { y with quantity := y.quantity - 1 }) c.items := hx
      rw [hu] at hx'
      rcases List.mem_append.mp hx' with hmem | hmem
      · exact h x (by rw [hl]; exact List.mem_append_left _ hmem)
      · rcases List.mem_cons.mp hmem with rfl | hmem
        · show 0 < it.quantity - 1
          linarith
        · exact h x
            (by rw [hl]; exact List.mem_append_right _ (List.mem_cons_of_mem _ hmem))

/-- C7 (amended): starting from a cart whose line quantities are all
positive, every mutation keeps every line quantity positive — a line with
quantity ≤ 0 never exists, it is deleted instead.  (The original claim
asked for integer quantities ≥ 1, which fractional numeric inputs to
`updateQuantity` refute.) -/
theorem mutation_quantities_positive (m : CartMutation) (c : Cart)
    (h : ∀ it ∈ c.items, 0 < it.quantity) :
    ∀ it ∈ (applyMutation m c).items, 0 < it.quantity := by
  cases m with
  | add pd => exact quantities_pos_addProduct c pd h
  | remove pid => exact quantities_pos_removeProduct c pid h
  | update pid q => exact quantities_pos_updateQuantity c pid q h
  | increase pid => exact quantities_pos_increaseQuantity c pid h
  | decrease pid => exact quantities_pos_decreaseQuantity c pid h
  | clear =>
      intro x hx
      exact absurd hx (List.not_mem_nil x)

/-- Witness for `mutation_quantities_positive` on a concrete cart. -/
theorem mutation_quantities_positive_witness :
    (∀ it ∈ cartB.items, 0 < it.quantity) ∧
    (∀ it ∈ (applyMutation (CartMutation.decrease 2) cartB).items,
      0 < it.quantity) := by
  have h : ∀ it ∈ cartB.items, 0 < it.quantity := by
    intro it hit
    rcases List.mem_cons.mp hit with rfl | hit
    · norm_num
    · rcases List.mem_singleton.mp hit with rfl
      norm_num
  exact ⟨h, mutation_quantities_positive (CartMutation.decrease 2) cartB h⟩

theorem frame_updateFirst_pid (c : Cart) (pid : Nat)
    (f : CartItem → CartItem) (hf : ∀ x, (f x).productId = x.productId) :
    (updateFirst (fun it => it.productId == pid) f c.items).filter
        (fun it => it.productId != pid) =
      c.items.filter (fun it => it.productId != pid) := by
  refine filter_updateFirst ?_ ?_ c.items
  · intro x
    show ((f x).productId != pid) = (x.productId != pid)
    rw [hf x]
  · intro x hx
    simp [bne, hx]

theorem filter_pid_idem (l : List CartItem) (pid : Nat) :
    (l.filter (fun it => it.productId != pid)).filter
        (fun it => it.productId != pid) =
      l.filter (fun it => it.productId != pid) := by
  rw [List.filter_filter]
  simp

/-- C10: every pid-targeted mutation leaves each line with a different
productId entirely unchanged (all fields), preserving the relative order of
those lines — stated as invariance of the sublist of non-target lines. -/
theorem mutation_frame (m : CartMutation) (c : Cart) (pid : Nat)
    (h : mutationTarget m = some pid) :
    (applyMutation m c).items.filter (fun it => it.productId != pid) =
      c.items.filter (fun it => it.productId != pid) := by
  cases m with
  | add pd =>
      obtain rfl : pd.productId = pid := by simpa [mutationTarget] using h
      show (addProduct c pd).items.filter _ = _
      unfold addProduct
      rcases hfind : c.items.find? (fun it => it.productId == pd.productId)
        with _ | it
      · rw [hfind]
        show (c.items ++ [snapshotLine pd 1]).filter _ = _
        rw [List.filter_append]
        have hnil : [snapshotLine pd 1].filter
            (fun it => it.productId != pd.productId) = [] := by
          simp [snapshotLine]
        rw [hnil, List.append_nil]
      · rw [hfind]
        exact frame_updateFirst_pid c _ _ (fun x => rfl)
  | remove pid' =>
      obtain rfl : pid' = pid := by simpa [mutationTarget] using h
      show (removeProduct c pid').items.filter _ = _
      exact filter_pid_idem c.items pid'
  | update pid' q =>
      obtain rfl : pid' = pid := by simpa [mutationTarget] using h
      show (updateQuantity c pid' q).items.filter _ = _
      unfold updateQuantity
      rcases le_or_lt q 0 with hq | hq
      · rw [if_pos hq]
        exact filter_pid_idem c.items pid'
      · rw [if_neg (not_le.mpr hq)]
        rcases hfind : c.items.find? (fun it => it.productId == pid')
          with _ | it
        · rw [hfind]
        · rw [hfind]
          exact frame_updateFirst_pid c _ _ (fun x => rfl)
  | increase pid' =>
      obtain rfl : pid' = pid := by simpa [mutationTarget] using h
      show (increaseQuantity c pid').items.filter _ = _
      unfold increaseQuantity
      rcases hfind : c.items.find? (fun it => it.productId == pid')
        with _ | it
      · rw [hfind]
      · rw [hfind]
        exact frame_updateFirst_pid c _ _ (fun x => rfl)
  | decrease pid' =>
      obtain rfl : pid' = pid := by simpa [mutationTarget] using h
      show (decreaseQuantity c pid').items.filter _ = _
      unfold decreaseQuantity
      rcases hfind : c.items.find? (fun it => it.productId == pid')
        with _ | it
      · rw [hfind]
      · simp only [hfind]
        rcases le_or_lt (it.quantity - 1) 0 with hq | hq
        · rw [if_pos hq]
          have hfr : (updateFirst (fun x => x.productId == pid')
              (fun x => { x with quantity := x.quantity - 1 })
              c.items).filter (fun it => it.productId != pid') =
              c.items.filter (fun it => it.productId != pid') :=
            frame_updateFirst_pid c pid'
              (fun x => { x with quantity := x.quantity - 1 }) (fun x => rfl)
          show ((updateFirst _ _ c.items).filter _).filter _ = _
          rw [hfr]
          exact filter_pid_idem c.items pid'
        · rw [if_neg (not_le.mpr hq)]
          exact frame_updateFirst_pid c _ _ (fun x => rfl)
  | clear => simp [mutationTarget] at h

/-- Witness for `mutation_frame`: removing product 1 from `cartB` leaves the
product-2 line untouched. -/
theorem mutation_frame_witness :
    mutationTarget (CartMutation.remove 1) = some 1 ∧
    (applyMutation (CartMutation.remove 1) cartB).items.filter
        (fun it => it.productId != 1) =
      cartB.items.filter (fun it => it.productId != 1) :=
  ⟨rfl, mutation_frame (CartMutation.remove 1) cartB 1 rfl⟩

/-- The empty cart created for a user passes every schema validator. -/
theorem validCart_newCartFor (uid : Nat) : validCart (newCartFor uid) = true := by
  simp [validCart, newCartFor]

/-- On the freshly created empty cart, `updateQuantity` is a no-op: a
nonpositive quantity removes nothing and a positive one finds no line. -/
theorem updateQuantity_newCart (uid pid : Nat) (q : ℚ) :
    updateQuantity (newCartFor uid) pid q = newCartFor uid := by
  unfold updateQuantity
  split
  · rfl
  · rfl

/-- Saving the freshly created empty cart always resolves, with the cart
unchanged. -/
theorem saveCart_newCartFor (uid : Nat) :
    saveCart (newCartFor uid) = Except.ok (newCartFor uid) := by
  unfold saveCart
  rw [validCart_newCartFor]
  rfl

/-- C8 counterexample: with no cart stored for user 5, the set-quantity
route answers 200/ok with a freshly created empty cart (the update is a
no-op on it and its save passes validation) — never the claimed not-found
outcome.  `updateProductQuantity` resolves the cart through
`getOrCreateCart`, so the route's 404 branch is unreachable. -/
theorem putQuantityRoute_missing_cart_cex :
    emptyStore 5 = none ∧
    (putQuantityRoute emptyStore 5 (some 1) (some 2)).fst =
      RouteOutcome.ok (newCartFor 5) ∧
    (putQuantityRoute emptyStore 5 (some 1) (some 2)).fst ≠
      RouteOutcome.notFound := by
  have hg : getOrCreateCart emptyStore 5 =
      (newCartFor 5, storeInsert emptyStore 5 (newCartFor 5)) := rfl
  have h2 : (putQuantityRoute emptyStore 5 (some 1) (some 2)).fst =
      RouteOutcome.ok (newCartFor 5) := by
    simp [putQuantityRoute, updateProductQuantity, hg, updateQuantity_newCart,
      saveCart_newCartFor]
  refine ⟨rfl, h2, ?_⟩
  rw [h2]
  simp

/-- C8 (amended): the set-quantity operation never answers not-found.  When
the updated cart passes the schema validators the route answers 200/ok with
the saved cart and persists it; when a validator rejects the save (for
example a line quantity set into (0,1), below `min: 1`) the route answers
500 with no further durable write; and for a userId with no cart the
operation implicitly creates an empty cart via `getOrCreateCart` — the
update is then a no-op on it, its save passes validation, and the route
answers 200/ok with that empty cart rather than not-found. -/
theorem putQuantityRoute_spec (s : CartStore) (uid pid : Nat) (q : ℚ) :
    (putQuantityRoute s uid (some pid) (some q)).fst ≠
      RouteOutcome.notFound ∧
    (validCart (updateQuantity (getOrCreateCart s uid).fst pid q) = true →
      putQuantityRoute s uid (some pid) (some q) =
        (RouteOutcome.ok
          (preSaveCart (updateQuantity (getOrCreateCart s uid).fst pid q)),
         storeInsert (getOrCreateCart s uid).snd uid
           (preSaveCart (updateQuantity (getOrCreateCart s uid).fst pid q)))) ∧
    (validCart (updateQuantity (getOrCreateCart s uid).fst pid q) = false →
      putQuantityRoute s uid (some pid) (some q) =
        (RouteOutcome.serverError, (getOrCreateCart s uid).snd)) ∧
    (s uid = none →
      (putQuantityRoute s uid (some pid) (some q)).fst =
        RouteOutcome.ok (newCartFor uid)) := by
  rcases hv : validCart (updateQuantity (getOrCreateCart s uid).fst pid q)
    with _ | _
  · have hsaved : saveCart (updateQuantity (getOrCreateCart s uid).fst pid q) =
        Except.error SaveError.validationFailed := by
      unfold saveCart
      rw [hv]
      rfl
    have hcompute : putQuantityRoute s uid (some pid) (some q) =
        (RouteOutcome.serverError, (getOrCreateCart s uid).snd) := by
      simp [putQuantityRoute, updateProductQuantity, hsaved]
    refine ⟨?_, ?_, fun _ => hcompute, ?_⟩
    · rw [hcompute]
      simp
    · intro htrue
      exact Bool.noConfusion htrue
    · intro hnone
      have hres : (getOrCreateCart s uid).fst = newCartFor uid := by
        unfold getOrCreateCart
        rw [hnone]
        rfl
      rw [hres, updateQuantity_newCart, validCart_newCartFor] at hv
      simp at hv
  · have hsaved : saveCart (updateQuantity (getOrCreateCart s uid).fst pid q) =
        Except.ok
          (preSaveCart (updateQuantity (getOrCreateCart s uid).fst pid q)) := by
      unfold saveCart
      rw [hv]
      rfl
    have hcompute : putQuantityRoute s uid (some pid) (some q) =
        (RouteOutcome.ok
          (preSaveCart (updateQuantity (getOrCreateCart s uid).fst pid q)),
         storeInsert (getOrCreateCart s uid).snd uid
           (preSaveCart (updateQuantity (getOrCreateCart s uid).fst pid q))) := by
      simp [putQuantityRoute, updateProductQuantity, hsaved]
    refine ⟨?_, fun _ => hcompute, ?_, ?_⟩
    · rw [hcompute]
      simp
    · intro hfalse
      exact Bool.noConfusion hfalse
    · intro hnone
      have hres : (getOrCreateCart s uid).fst = newCartFor uid := by
        unfold getOrCreateCart
        rw [hnone]
        rfl
      rw [hcompute]
      show RouteOutcome.ok
          (preSaveCart (updateQuantity (getOrCreateCart s uid).fst pid q)) =
        RouteOutcome.ok (newCartFor uid)
      rw [hres, updateQuantity_newCart]
      rfl

/-- Witness for `putQuantityRoute_spec` on the empty store: no cart exists
for user 5, and the route answers ok with the implicitly created empty
cart. -/
theorem putQuantityRoute_spec_witness :
    emptyStore 5 = none ∧
    (putQuantityRoute emptyStore 5 (some 1) (some 2)).fst =
      RouteOutcome.ok (newCartFor 5) :=
  ⟨rfl, (putQuantityRoute_spec emptyStore 5 1 2).2.2.2 rfl⟩

/-- C9: the explicit creation route answers conflict — leaving the store
untouched — whenever `getUserCart` finds a cart for the user, and otherwise
creates, persists and returns a new empty cart for that user. -/
theorem createCartRoute_spec (s : CartStore) (uid : Nat) :
    (∀ existing, getUserCart s uid = some existing →
      createCartRoute s (some uid) = (RouteOutcome.conflict existing, s)) ∧
    (getUserCart s uid = none →
      createCartRoute s (some uid) =
        (RouteOutcome.created (newCartFor uid),
         storeInsert s uid (newCartFor uid)) ∧
      (newCartFor uid).items = [] ∧ (newCartFor uid).totalAmount = 0 ∧
      (newCartFor uid).totalItems = 0) := by
  constructor
  · intro existing hex
    simp only [createCartRoute]
    rw [hex]
  · intro hnone
    have hpre : preSaveCart (newCartFor uid) = newCartFor uid := rfl
    refine ⟨?_, rfl, rfl, rfl⟩
    simp only [createCartRoute, getOrCreateCart]
    rw [hnone]
    have hnone' : s uid = none := hnone
    rw [hnone']
    rfl

/-- Witness for `createCartRoute_spec`: creating on the empty store yields
201 with the empty cart of user 5. -/
theorem createCartRoute_spec_witness :
    getUserCart emptyStore 5 = none ∧
    createCartRoute emptyStore (some 5) =
      (RouteOutcome.created (newCartFor 5),
       storeInsert emptyStore 5 (newCartFor 5)) :=
  ⟨rfl, ((createCartRoute_spec emptyStore 5).2 rfl).1⟩
